import Mathlib

/-!
Verification development for the ECHR case-crawler repository: a shallow
embedding of the bulk crawl control loop (monthly scraper) and of the
batched persistence/upsert pipeline (`d1-adapter.js`), together with
theorems settling the specified properties.

Conventions of the embedding:
* JavaScript strings are Lean `String`s (titles are assumed newline-free,
  which matches every value the scraper produces from a single DOM cell);
* nullable values are `Option`s; a JS falsy-string check (`!s`) becomes a
  test against `none` or `""`;
* the SQL scripts built by the adapter are embedded as lists of abstract
  statements with a relational semantics over an explicit database state;
* the crawl loop is a state-transition function driven by an explicit
  list of fetch outcomes and an oracle for persistence success/failure.
-/

namespace ECHR

/-! ## Date/Field Normalizer (d1-adapter.js: convertDate, extractCountry, isCaseClosed) -/

/-- Character-level digit test used to embed the regex check
of d1-adapter.js line 76 (match against four digits, dash, two digits,
dash, two digits, anchored at both ends). -/
def isCanonicalDate (s : String) : Bool :=
  match s.data with
  | [a, b, c, d, e, f, g, h, i, j] =>
    a.isDigit && b.isDigit && c.isDigit && d.isDigit && e = '-' &&
    f.isDigit && g.isDigit && h = '-' && i.isDigit && j.isDigit
  | _ => false

/-- Embedding of JavaScript `String.prototype.padStart(2, '0')` on the
character list of the string. -/
def padStart2 (l : List Char) : List Char :=
  match l with
  | [] => ['0', '0']
  | [c] => ['0', c]
  | _ => l

/-- Embedding of JavaScript `split('/')`: always at least one field,
empty fields preserved (so it agrees with `"".split`, `"a/".split`,
`"/a".split`, ...). -/
def splitSlash : List Char → List (List Char)
  | [] => [[]]
  | c :: rest =>
    match splitSlash rest with
    | [] => [[c]]
    | h :: t => if c = '/' then [] :: h :: t else (c :: h) :: t

/-- Embedding of `D1Adapter.convertDate` (d1-adapter.js lines 72-85):
`null`/empty input gives `null`; an input matching the canonical
`YYYY-MM-DD` regex is returned unchanged; otherwise the input is split on
slashes, the first three fields are destructured as day/month/year, any
missing or empty field gives `null` (JS destructuring yields `undefined`
for missing fields and `''` and `undefined` are both falsy), and
otherwise the result is rebuilt as `year-month-day` with month and day
zero-padded to width 2. -/
def convertDate : Option String → Option String
  | none => none
  | some s =>
    if s = "" then none
    else if isCanonicalDate s then some s
    else
      match splitSlash s.data with
      | day :: month :: year :: _ =>
        if day = [] ∨ month = [] ∨ year = [] then none
        else some (String.mk (year ++ '-' :: padStart2 month ++ '-' :: padStart2 day))
      | _ => none

/-- JavaScript whitespace class restricted to the ASCII characters the
scraper can produce; used for the regex class in `extractCountry` and
for the JS `trim`. -/
def isWsChar (c : Char) : Bool :=
  c = ' ' || c = '\t' || c = '\n' || c = '\r' || c = '\x0b' || c = '\x0c'

/-- Embedding of JavaScript `String.prototype.trim` over char lists. -/
def jsTrim (l : List Char) : List Char :=
  ((l.dropWhile isWsChar).reverse.dropWhile isWsChar).reverse

/-- Does the regex of `extractCountry` (d1-adapter.js line 91) match
starting at the head of the list?  The pattern matches at a position
exactly when the characters there are 'v', '.', one whitespace
character, and at least one further character (the `\s+(.+)$` part: on
a newline-free string the greedy whitespace run can always backtrack to
a single character, so a match starting at 'v' succeeds as soon as the
tail after "v." starts with whitespace and has length at least two). -/
def vDotMatchAt : List Char → Bool
  | 'v' :: '.' :: w :: t => isWsChar w && !t.isEmpty
  | _ => false

/-- Leftmost-match scan for the regex of `extractCountry`: the scan
returns the suffix after "v." of the first position where the pattern
matches; a failed position is skipped and the scan resumes one
character later, exactly like the regex engine. -/
def vDotScan : List Char → Option (List Char)
  | [] => none
  | c :: rest => if vDotMatchAt (c :: rest) then some (rest.drop 1) else vDotScan rest

/-- Embedding of `D1Adapter.extractCountry` (d1-adapter.js lines 90-93):
`title.match(/v\.\s+(.+)$/)` followed by `match[1].trim()`, or `null`
when the regex does not match.  Because the captured group starts right
after the greedy whitespace run, trimming the capture equals trimming
the whole suffix after "v.", which is what the scan returns. -/
def extractCountry (title : String) : Option String :=
  (vDotScan title.data).map (fun l => String.mk (jsTrim l))

/-- Does the first list begin with the second one? Helper for the
substring test embedding `String.prototype.includes`. -/
def beginsWith : List Char → List Char → Bool
  | _, [] => true
  | [], _ :: _ => false
  | c :: cs, p :: ps => c = p && beginsWith cs ps

/-- Embedding of JavaScript `String.prototype.includes` on char lists. -/
def containsSub (l pat : List Char) : Bool :=
  match l with
  | [] => pat.isEmpty
  | _ :: rest => beginsWith l pat || containsSub rest pat

/-- ASCII lowercasing of one character, embedding the effect of
`String.prototype.toLowerCase` on the scraper's ASCII event texts. -/
def asciiLower (c : Char) : Char :=
  if 'A' ≤ c && c ≤ 'Z' then Char.ofNat (c.toNat + 32) else c

/-- Embedding of `D1Adapter.isCaseClosed` (d1-adapter.js lines 33-38):
false on a missing/empty last event (JS falsy check), otherwise a
lowercased substring test for "finished" or "inadmissible". -/
def isCaseClosed : Option String → Bool
  | none => false
  | some s =>
    if s = "" then false
    else
      let lower := s.data.map asciiLower
      containsSub lower "finished".data || containsSub lower "inadmissible".data

/-! ## Case records (improved-scraper.js result shape) -/

/-- One row of the MajorEventsList table as scraped (description and
free-text date). -/
structure CaseEvent where
  description : String
  eventDate : String
  deriving Repr, DecidableEq

/-- The record produced by `scrapeECHRApplication` for a found case.
Optional fields are those the scraper may return as `null`. -/
structure CaseData where
  applicationNumber : String
  applicationTitle : String
  dateIntroduction : Option String
  representant : Option String
  lastMajorEvent : Option String
  lastMajorEventDate : Option String
  majorEventsList : List CaseEvent
  deriving Repr, DecidableEq

/-- JS truthiness of a nullable string (`null`, `undefined` and `''` are
falsy). -/
def optTruthy : Option String → Option String
  | none => none
  | some s => if s = "" then none else some s

/-! ## Abstract persistence statements and database semantics

The adapter builds SQL text by string concatenation; the embedding keeps
the statements abstract (one constructor per statement shape the adapter
emits) and gives them a relational semantics over an explicit database
state.  Event rows are keyed by application number because every event
statement the adapter emits resolves the application id by an
application-number lookup (`SELECT id FROM applications WHERE
application_number = ...`).  Representative ids are kept as the name set
of the representatives table; the claims under verification do not
depend on numeric ids. -/

/-- One persisted event row (events table). -/
structure EventRow where
  eventDate : Option String
  description : String
  isLastEvent : Bool
  deriving Repr, DecidableEq

/-- One persisted case row (applications table), with the fields the
claims are about. -/
structure AppRow where
  applicationTitle : String
  country : Option String
  dateIntroduction : Option String
  representativeName : Option String
  lastMajorEvent : Option String
  lastMajorEventDate : Option String
  isClosed : Bool
  notFoundCount : Nat
  skipScraping : Bool
  deriving Repr, DecidableEq

/-- The fresh row derived from a fetched record, as both upsert builders
compute it (d1-adapter.js saveApplication lines 188-234 and
buildBatchSQLWithReps lines 440-482): dates normalized by `convertDate`,
country derived by `extractCountry`, closed flag by `isCaseClosed`,
and `not_found_count` set to 0. -/
def freshRow (d : CaseData) : AppRow where
  applicationTitle := d.applicationTitle
  country := extractCountry d.applicationTitle
  dateIntroduction := convertDate d.dateIntroduction
  representativeName := optTruthy d.representant
  lastMajorEvent := optTruthy d.lastMajorEvent
  lastMajorEventDate := convertDate d.lastMajorEventDate
  isClosed := isCaseClosed d.lastMajorEvent
  notFoundCount := 0
  skipScraping := false

/-- The event rows built from a fetched event list: dates normalized,
`is_last_event` set exactly on the final index (`i === list.length - 1`
in both builders). -/
def eventRowsOf (evs : List CaseEvent) : List EventRow :=
  (List.range evs.length).zipWith
    (fun i e =>
      { eventDate := convertDate (some e.eventDate)
        description := e.description
        isLastEvent := decide (i + 1 = evs.length) })
    evs

/-- Abstract persistence statements, one constructor per statement shape
the adapter emits. -/
inductive Stmt where
  | insertReps (names : List String)
  | upsertApp (d : CaseData)
  | deleteEvents (appNumber : String)
  | insertEvents (appNumber : String) (rows : List EventRow)
  | markNotFound (appNumber : String)
  deriving Repr, DecidableEq

/-- Database state: applications keyed by application number (unique
key), event rows keyed by the owning application number, and the set of
representative names. -/
structure DB where
  apps : List (String × AppRow)
  events : List (String × EventRow)
  reps : List String
  deriving Repr, DecidableEq

/-- Semantics of `markAsNotFound`'s UPDATE (d1-adapter.js lines 524-535)
on one row: `not_found_count` is incremented, and `skip_scraping`
becomes 1 when the incremented count reaches 60 and is otherwise kept. -/
def markRow (r : AppRow) : AppRow :=
  { r with
    notFoundCount := r.notFoundCount + 1
    skipScraping := if r.notFoundCount + 1 ≥ 60 then true else r.skipScraping }

/-- Semantics of the upsert's `ON CONFLICT ... DO UPDATE` branch
(d1-adapter.js lines 222-233 and 471-482) on an existing row: every
listed field is overwritten from the fresh record and `not_found_count`
is set to 0; `skip_scraping` is not in the SET list, so it is kept. -/
def upsertRowOnConflict (d : CaseData) (r : AppRow) : AppRow :=
  { freshRow d with skipScraping := r.skipScraping }

/-- Lookup of an application row by number. -/
def DB.lookupApp (db : DB) (n : String) : Option AppRow :=
  (db.apps.find? (fun p => p.1 = n)).map (fun p => p.2)

/-- The persisted event rows of one case, in insertion order. -/
def DB.eventsFor (db : DB) (n : String) : List EventRow :=
  (db.events.filter (fun p => p.1 = n)).map (fun p => p.2)

/-- Relational semantics of one abstract statement. -/
def applyStmt (db : DB) : Stmt → DB
  | .insertReps names =>
    { db with reps := names.foldl (fun acc m => if m ∈ acc then acc else acc ++ [m]) db.reps }
  | .upsertApp d =>
    if (db.apps.find? (fun p => p.1 = d.applicationNumber)).isSome then
      { db with
          apps := db.apps.map (fun p =>
            if p.1 = d.applicationNumber then (p.1, upsertRowOnConflict d p.2) else p) }
    else
      { db with apps := db.apps ++ [(d.applicationNumber, freshRow d)] }
  | .deleteEvents n =>
    { db with events := db.events.filter (fun p => ¬ p.1 = n) }
  | .insertEvents n rows =>
    { db with events := db.events ++ rows.map (fun r => (n, r)) }
  | .markNotFound n =>
    { db with apps := db.apps.map (fun p => if p.1 = n then (p.1, markRow p.2) else p) }

/-- Sequential execution of a statement list. -/
def applyStmts (stmts : List Stmt) (db : DB) : DB :=
  stmts.foldl applyStmt db

/-- The unique representative names of a batch, in first-occurrence
order (buildBatchSQLWithReps lines 417-419: map, truthiness filter,
Set dedup). -/
def uniqueReps (casesData : List CaseData) : List String :=
  ((casesData.map (fun d => d.representant)).filterMap optTruthy).foldl
    (fun acc m => if m ∈ acc then acc else acc ++ [m]) []

/-- The event statements emitted for one case by `buildBatchSQLWithReps`
(lines 484-500): a DELETE of all prior events, then — only when the
fetched list is non-empty — one multi-row INSERT of the full list. -/
def caseEventStmts (d : CaseData) : List Stmt :=
  Stmt.deleteEvents d.applicationNumber ::
    (if d.majorEventsList.isEmpty then []
     else [Stmt.insertEvents d.applicationNumber (eventRowsOf d.majorEventsList)])

/-- Embedding of `buildBatchSQLWithReps` (d1-adapter.js lines 412-514):
one representative bulk insert (only when some case has a
representative), then all case upserts in batch order, then all
event delete/insert groups in batch order. -/
def buildBatchStmts (casesData : List CaseData) : List Stmt :=
  (if (uniqueReps casesData).isEmpty then [] else [Stmt.insertReps (uniqueReps casesData)])
    ++ casesData.map Stmt.upsertApp
    ++ casesData.flatMap caseEventStmts

/-- Embedding of the statements executed by the single-record path
`saveApplication` (d1-adapter.js lines 175-279): the case upsert, then
the event DELETE, then the event INSERT built from the full fetched
list (the INSERT is emitted even for an empty list; with zero value
rows it inserts nothing). -/
def saveApplicationStmts (d : CaseData) : List Stmt :=
  [Stmt.upsertApp d,
   Stmt.deleteEvents d.applicationNumber,
   Stmt.insertEvents d.applicationNumber (eventRowsOf d.majorEventsList)]

/-- Embedding of `markAsNotFound` (d1-adapter.js lines 519-545) as the
single statement it executes against the full number
`applicationNumber/applicationYear`. -/
def markAsNotFoundStmt (applicationNumber applicationYear : String) : Stmt :=
  Stmt.markNotFound (applicationNumber ++ "/" ++ applicationYear)

/-! ## Persisted-case operation sequences (for the counter/skip claims)

A persisted case evolves only through the two row operations above:
a not-found mark and a successful-refetch upsert. -/

/-- One operation applied to a persisted case row. -/
inductive CaseOp where
  | mark
  | refetch (d : CaseData)
  deriving Repr

/-- Row-level effect of one operation (the exact functions used in the
statement semantics). -/
def applyCaseOp (r : AppRow) : CaseOp → AppRow
  | .mark => markRow r
  | .refetch d => upsertRowOnConflict d r

/-- The row after a sequence of operations starting from the row a first
successful fetch inserts (`freshRow`: counter 0, skip flag unset). -/
def runCaseOps (d0 : CaseData) (ops : List CaseOp) : AppRow :=
  ops.foldl applyCaseOp (freshRow d0)

/-! ## Monthly bulk crawl loop (MonthlyECHRScraper)

`MonthlyECHRScraper.run` is embedded as a state-transition system driven
by an explicit list of per-attempt fetch outcomes (the external
`scrapeECHRApplication` collaborator): a found record, a not-found
result (the scraper returned null), or a thrown fetch error (caught by
the loop's catch block).  Persistence success/failure is an oracle:
whether the Import API is configured, whether the n-th bulk upload
succeeds, and whether the n-th individual fallback save succeeds.  The
model returns the final scraper state; observable interactions are
collected in an effect trace. -/

/-- Outcome of one `scrapeECHRApplication` call as seen by the loop. -/
inductive Outcome where
  | found (d : CaseData)
  | notfound
  | fetchError
  deriving Repr, DecidableEq

/-- Oracle for the persistence layer's success and failure. -/
structure PersistOracle where
  importAPI : Bool
  bulkOk : Nat → Bool
  singleOk : Nat → Bool

/-- The always-succeeding persistence oracle. -/
def allOk : PersistOracle where
  importAPI := true
  bulkOk := fun _ => true
  singleOk := fun _ => true

/-- Run statistics of the monthly scraper (constructor, lines 63-69). -/
structure Stats where
  found : Nat
  notFound : Nat
  errors : Nat
  totalChecked : Nat
  deriving Repr, DecidableEq

/-- Observable interactions of the monthly run: a batch flush handed to
`saveBatch` with its reported success/failure counts, a
`markAsNotFound` statement issued against a case, and the final
statistics report that ends a completed run. -/
inductive Effect where
  | flushed (cases : List CaseData) (succeeded failed : Nat)
  | markedNotFound (appNumber : String)
  | finalStatsReport
  deriving Repr, DecidableEq

/-- Full mutable state of `MonthlyECHRScraper` during `run`:
the batch queue and attempt counter, the statistics, the crawl position
(`currentYear`, `currentNumber`), the oracle indices for persistence
attempts, the effect trace, and a ghost counter `attemptIncTotal` that
adds 1 at every `this.attemptCounter++` in the source and is never
reset (the attempt counter itself is reset by flushes). -/
structure MState where
  batchQueue : List CaseData
  attemptCounter : Nat
  stats : Stats
  currentYear : Nat
  currentNumber : Nat
  bulkIdx : Nat
  singleIdx : Nat
  effects : List Effect
  attemptIncTotal : Nat
  deriving Repr

/-- The hardcoded flush threshold `BATCH_ATTEMPTS = 250` (line 59). -/
def BATCH_ATTEMPTS : Nat := 250

/-- Crawl configuration (constructor lines 53-56, after defaulting). -/
structure Config where
  startYear : Nat
  maxYear : Nat
  maxConsecutiveSkips : Nat
  startNumber : Nat
  deriving Repr

/-- Initial scraper state for a run. -/
def initState (cfg : Config) : MState where
  batchQueue := []
  attemptCounter := 0
  stats := { found := 0, notFound := 0, errors := 0, totalChecked := 0 }
  currentYear := cfg.startYear
  currentNumber := cfg.startNumber
  bulkIdx := 0
  singleIdx := 0
  effects := []
  attemptIncTotal := 0

/-- Success/failure counts of the sequential fallback in `saveBatch`
(lines 393-406): each case goes through `saveApplication`, whose
success is the oracle's verdict for the next individual-save index. -/
def fallbackCounts (po : PersistOracle) (base len : Nat) : Nat × Nat :=
  let succeeded := (List.range len).countP (fun i => po.singleOk (base + i))
  (succeeded, len - succeeded)

/-- Embedding of `saveBatch` (lines 367-407): with the Import API
available, a successful bulk upload reports all cases saved; a failed
upload falls through to the sequential fallback, as does the
no-Import-API configuration.  `saveBatch` catches every persistence
error itself and only ever returns counts. -/
def saveBatchCounts (po : PersistOracle) (st : MState) (cases : List CaseData) :
    (Nat × Nat) × MState :=
  if po.importAPI then
    if po.bulkOk st.bulkIdx then
      ((cases.length, 0), { st with bulkIdx := st.bulkIdx + 1 })
    else
      let st := { st with bulkIdx := st.bulkIdx + 1 }
      (fallbackCounts po st.singleIdx cases.length,
       { st with singleIdx := st.singleIdx + cases.length })
  else
    (fallbackCounts po st.singleIdx cases.length,
     { st with singleIdx := st.singleIdx + cases.length })

/-- Embedding of `flushBatch` (lines 76-93): an empty queue returns at
once (in particular the attempt counter is NOT reset in that case);
otherwise the queue is handed to `saveBatch`, the flush is recorded,
and queue and attempt counter are cleared unconditionally. -/
def flushBatch (po : PersistOracle) (st : MState) : MState :=
  if st.batchQueue.isEmpty then st
  else
    let cases := st.batchQueue
    let counts := (saveBatchCounts po st cases).1
    let st1 := (saveBatchCounts po st cases).2
    { st1 with
      batchQueue := []
      attemptCounter := 0
      effects := st1.effects ++ [.flushed cases counts.1 counts.2] }

/-- The flush check `if (this.attemptCounter >= this.BATCH_ATTEMPTS)`
performed on both the try and the catch path (lines 140-142, 151-153). -/
def maybeFlush (po : PersistOracle) (st : MState) : MState :=
  if st.attemptCounter ≥ BATCH_ATTEMPTS then flushBatch po st else st

/-- One iteration of the inner while loop (lines 114-165), given the
current consecutive-skip count; returns the new state and skip count.
Order of the source: `totalChecked` is incremented first; the try block
increments the attempt counter and then fetches; a found record is
queued, counted and resets the skip count; a null result counts
not-found and one skip; a thrown fetch error is handled by the catch
block, which counts an error and one skip and increments the attempt
counter again (the try block had already incremented it before the
fetch threw); both paths then run the flush check; finally
`currentNumber` is incremented. -/
def attemptStep (po : PersistOracle) (st : MState) (skips : Nat) (o : Outcome) :
    MState × Nat :=
  let st := { st with stats := { st.stats with totalChecked := st.stats.totalChecked + 1 } }
  match o with
  | .found d =>
    let st := { st with
      attemptCounter := st.attemptCounter + 1
      attemptIncTotal := st.attemptIncTotal + 1
      batchQueue := st.batchQueue ++ [d]
      stats := { st.stats with found := st.stats.found + 1 } }
    let st := maybeFlush po st
    ({ st with currentNumber := st.currentNumber + 1 }, 0)
  | .notfound =>
    let st := { st with
      attemptCounter := st.attemptCounter + 1
      attemptIncTotal := st.attemptIncTotal + 1
      stats := { st.stats with notFound := st.stats.notFound + 1 } }
    let st := maybeFlush po st
    ({ st with currentNumber := st.currentNumber + 1 }, skips + 1)
  | .fetchError =>
    let st := { st with
      attemptCounter := st.attemptCounter + 2
      attemptIncTotal := st.attemptIncTotal + 2
      stats := { st.stats with errors := st.stats.errors + 1 } }
    let st := maybeFlush po st
    ({ st with currentNumber := st.currentNumber + 1 }, skips + 1)

/-- The inner while loop of one year segment
(`while (consecutiveSkips < this.maxConsecutiveSkips)`, lines 114-165),
driven by the remaining outcome list; returns the state and the
outcomes left unconsumed.  The model also stops when the outcome list
is exhausted. -/
def runSegment (cfg : Config) (po : PersistOracle) (skips : Nat) (st : MState) :
    List Outcome → MState × List Outcome
  | [] => (st, [])
  | o :: rest =>
    if skips < cfg.maxConsecutiveSkips then
      runSegment cfg po (attemptStep po st skips o).2 (attemptStep po st skips o).1 rest
    else (st, o :: rest)

/-- End of a year segment (lines 167-174): flush the queue, advance to
the next year, and reset the identifier to the literal 1. -/
def endSegment (po : PersistOracle) (st : MState) : MState :=
  let st := flushBatch po st
  { st with currentYear := st.currentYear + 1, currentNumber := 1 }

/-- The outer while loop over years (lines 108-175).  `fuel` counts the
remaining loop iterations; `runMonthly` instantiates it so that it runs
out exactly when `currentYear` exceeds `maxYear`, making the guard and
the fuel agree with the source's `while (currentYear <= this.maxYear)`. -/
def runYears (cfg : Config) (po : PersistOracle) :
    Nat → MState → List Outcome → MState × List Outcome
  | 0, st, outcomes => (st, outcomes)
  | fuel + 1, st, outcomes =>
    if st.currentYear > cfg.maxYear then (st, outcomes)
    else
      runYears cfg po fuel (endSegment po (runSegment cfg po 0 st outcomes).1)
        (runSegment cfg po 0 st outcomes).2

/-- Embedding of `MonthlyECHRScraper.run` (lines 98-180): the year loop
from the initial state, the final flush, and the final statistics
report. -/
def runMonthly (cfg : Config) (po : PersistOracle) (outcomes : List Outcome) : MState :=
  let st1 := (runYears cfg po (cfg.maxYear + 1 - cfg.startYear) (initState cfg) outcomes).1
  let st2 := flushBatch po st1
  { st2 with effects := st2.effects ++ [.finalStatsReport] }

/-- Count of `markedNotFound` effects in a trace. -/
def countMarked (effects : List Effect) : Nat :=
  effects.countP (fun e => match e with | .markedNotFound _ => true | _ => false)

/-- Count of fetch-error outcomes in a list. -/
def countErrors (outcomes : List Outcome) : Nat :=
  outcomes.countP (fun o => match o with | .fetchError => true | _ => false)

/-- Does a statement read or write the event rows of the given
application number? -/
def touchesEvents (n : String) : Stmt → Bool
  | .deleteEvents m => m = n
  | .insertEvents m _ => m = n
  | _ => false

/-- A flush report is consistent when its success and failure counts sum
to the size of the batch it persisted. -/
def flushedOk : Effect → Prop
  | .flushed cases succeeded failed => succeeded + failed = cases.length
  | _ => True

end ECHR

namespace ECHR

/-! Sanity checks on concrete inputs (kept as anonymous examples). -/

example : convertDate (some "05/03/2020") = some "2020-03-05" := by decide
example : convertDate (some "2020-03-05") = some "2020-03-05" := by decide
example : convertDate (some "not-a-date") = none := by decide
example : convertDate none = none := rfl
example : extractCountry "Ivanov v. Russia" = some "Russia" := by decide
example : extractCountry "No separator here" = none := by decide
example : extractCountry "A v. B v. C" = some "B v. C" := by decide
example : isCaseClosed (some "Case finished") = true := by decide
example : isCaseClosed (some "Hearing scheduled") = false := by decide

/-- A concrete fetched record used by witnesses and counterexamples. -/
def sampleCase : CaseData where
  applicationNumber := "152/18"
  applicationTitle := "Ivanov v. Russia"
  dateIntroduction := some "05/03/2020"
  representant := some "Maria Petrova"
  lastMajorEvent := some "Communicated"
  lastMajorEventDate := some "06/03/2020"
  majorEventsList := [⟨"Application lodged", "05/03/2020"⟩, ⟨"Communicated", "06/03/2020"⟩]

/-- A concrete configuration used by witnesses and counterexamples:
one year, skip threshold 3, start number 5. -/
def sampleConfig : Config where
  startYear := 19
  maxYear := 19
  maxConsecutiveSkips := 3
  startNumber := 5

example :
    (runMonthly sampleConfig allOk
      [.found sampleCase, .notfound, .notfound, .notfound]).currentNumber = 1 := by decide
example :
    (runMonthly sampleConfig allOk
      [.found sampleCase, .notfound, .notfound, .notfound]).currentYear = 20 := by decide
example :
    (runMonthly sampleConfig allOk
      [.found sampleCase, .notfound, .notfound, .notfound]).effects =
      [.flushed [sampleCase] 1 0, .finalStatsReport] := by decide
example : (runMonthly sampleConfig allOk [.fetchError]).attemptIncTotal = 2 := by decide
example : (runMonthly sampleConfig allOk [.fetchError]).stats.totalChecked = 1 := by decide

/-! ## C8: date normalization -/

/-- C8: `convertDate` (the spec's `normalizeDate`) returns an
already-canonical `YYYY-MM-DD` string unchanged; converts a
day/month/year slash-separated string (one whose first three slash
fields are present and non-empty — the destructuring ignores further
fields) to `YYYY-MM-DD` with day and month zero-padded,
in particular `convertDate "05/03/2020" = "2020-03-05"`; and yields
null for missing input and for every other input shape (fewer than
three slash fields, or an empty one among the first three), in
particular `convertDate "not-a-date" = null`. -/
theorem convertDate_normalization :
    convertDate none = none ∧
    convertDate (some "") = none ∧
    convertDate (some "05/03/2020") = some "2020-03-05" ∧
    convertDate (some "2020-03-05") = some "2020-03-05" ∧
    convertDate (some "not-a-date") = none ∧
    (∀ s : String, isCanonicalDate s = true → convertDate (some s) = some s) ∧
    (∀ (s : String) (day month year : List Char) (rest : List (List Char)),
      isCanonicalDate s = false →
      splitSlash s.data = day :: month :: year :: rest →
      day ≠ [] → month ≠ [] → year ≠ [] →
      convertDate (some s) =
        some (String.mk (year ++ '-' :: padStart2 month ++ '-' :: padStart2 day))) ∧
    (∀ s : String, isCanonicalDate s = false →
      (∀ (day month year : List Char) (rest : List (List Char)),
        splitSlash s.data = day :: month :: year :: rest →
        day = [] ∨ month = [] ∨ year = []) →
      convertDate (some s) = none) := by
  refine ⟨rfl, by decide, by decide, by decide, by decide, ?_, ?_, ?_⟩
  · intro s h
    have hs : s ≠ "" := by
      intro e; subst e; simp [isCanonicalDate] at h
    simp [convertDate, hs, h]
  · intro s day month year rest hc hsplit hd hm hy
    have hs : s ≠ "" := by
      intro e; subst e
      simp [show ("" : String).data = [] from rfl, splitSlash] at hsplit
    simp [convertDate, hs, hc, hsplit, hd, hm, hy]
  · intro s hc hother
    by_cases hs : s = ""
    · subst hs; decide
    · simp only [convertDate]
      rw [if_neg hs, if_neg (by simp [hc])]
      rcases h : splitSlash s.data with _ | ⟨day, _ | ⟨month, _ | ⟨year, rest⟩⟩⟩
      · rfl
      · rfl
      · rfl
      · simp [hother day month year rest h]

/-- Witness for C8 at fresh concrete inputs: a slash date with one-digit
fields is zero-padded, and a string with no slashes yields null. -/
theorem convertDate_normalization_witness :
    convertDate (some "7/4/2021") = some "2021-04-07" ∧
    convertDate (some "abc") = none := by
  constructor
  · have h := convertDate_normalization.2.2.2.2.2.2.1 "7/4/2021"
      ['7'] ['4'] ['2', '0', '2', '1'] [] (by decide) (by decide)
      (by decide) (by decide) (by decide)
    exact h.trans (by decide)
  · refine convertDate_normalization.2.2.2.2.2.2.2 "abc" (by decide) ?_
    intro day month year rest h
    rw [show splitSlash ("abc" : String).data = [['a', 'b', 'c']] from by decide] at h
    have hl := congrArg List.length h
    simp only [List.length_cons, List.length_nil] at hl
    omega

/-! ## C9: jurisdiction extraction -/

/-- Helper for C9: when the extraction pattern matches at no position of
the list, the scan returns none. -/
theorem vDotScan_eq_none_of_noMatch :
    ∀ l : List Char, (∀ n < l.length, vDotMatchAt (l.drop n) = false) →
      vDotScan l = none := by
  intro l
  induction l with
  | nil => intro _; rfl
  | cons c rest ih =>
    intro h
    have h0 : vDotMatchAt (c :: rest) = false := by
      have := h 0 (by simp)
      simpa using this
    have hrest : ∀ n < rest.length, vDotMatchAt (rest.drop n) = false := by
      intro n hn
      have := h (n + 1) (by simpa using Nat.succ_lt_succ hn)
      simpa using this
    simp [vDotScan, h0]
    exact ih hrest

/-- Helper for C9: the scan finds the first matching position and
returns the suffix after its "v.". -/
theorem vDotScan_append (pre : List Char) (w : Char) (post : List Char)
    (hw : isWsChar w = true) (hp : post ≠ [])
    (hpre : ∀ n < pre.length, vDotMatchAt ((pre ++ 'v' :: '.' :: w :: post).drop n) = false) :
    vDotScan (pre ++ 'v' :: '.' :: w :: post) = some (w :: post) := by
  induction pre with
  | nil =>
    have hm : vDotMatchAt ('v' :: '.' :: w :: post) = true := by
      simp [vDotMatchAt, hw, hp]
    simp [vDotScan, hm]
  | cons c pre ih =>
    have h0 : vDotMatchAt (c :: (pre ++ 'v' :: '.' :: w :: post)) = false := by
      have := hpre 0 (by simp)
      simpa using this
    have hrest : ∀ n < pre.length, vDotMatchAt ((pre ++ 'v' :: '.' :: w :: post).drop n) = false := by
      intro n hn
      have := hpre (n + 1) (by simp; omega)
      simpa using this
    calc vDotScan ((c :: pre) ++ 'v' :: '.' :: w :: post)
        = vDotScan (c :: (pre ++ 'v' :: '.' :: w :: post)) := by rw [List.cons_append]
      _ = vDotScan (pre ++ 'v' :: '.' :: w :: post) := by simp [vDotScan, h0]
      _ = some (w :: post) := ih hrest

/-- C9 (counterexample): on a title with two case-style separators, the
code returns the trimmed remainder after the FIRST occurrence of the
separator, not the trailing token after the last occurrence: at the
concrete title "A v. B v. C" it returns "B v. C", not "C". -/
theorem extractCountry_not_last_occurrence :
    extractCountry "A v. B v. C" = some "B v. C" ∧
    extractCountry "A v. B v. C" ≠ some "C" := by decide

/-- C9 (amended): `extractCountry` (the spec's `deriveJurisdiction`)
returns the trimmed remainder of the title after the FIRST occurrence
of "v." followed by whitespace (`extractCountry "Ivanov v. Russia" =
"Russia"`), and returns null for every title in which the pattern is
absent (`extractCountry "No separator here" = null`). -/
theorem extractCountry_jurisdiction :
    extractCountry "Ivanov v. Russia" = some "Russia" ∧
    extractCountry "No separator here" = none ∧
    (∀ title : String,
      (∀ n < title.data.length, vDotMatchAt (title.data.drop n) = false) →
      extractCountry title = none) ∧
    (∀ (pre : List Char) (w : Char) (post : List Char),
      isWsChar w = true → post ≠ [] →
      (∀ n < pre.length, vDotMatchAt ((pre ++ 'v' :: '.' :: w :: post).drop n) = false) →
      extractCountry (String.mk (pre ++ 'v' :: '.' :: w :: post)) =
        some (String.mk (jsTrim (w :: post)))) := by
  refine ⟨by decide, by decide, ?_, ?_⟩
  · intro title h
    unfold extractCountry
    rw [vDotScan_eq_none_of_noMatch title.data h]
    rfl
  · intro pre w post hw hp hpre
    unfold extractCountry
    rw [show (String.mk (pre ++ 'v' :: '.' :: w :: post)).data
          = pre ++ 'v' :: '.' :: w :: post from rfl]
    rw [vDotScan_append pre w post hw hp hpre]
    rfl

/-- Witness for C9's amended theorem at fresh concrete inputs: a short
title with no pattern, and a title decomposed around its first
separator occurrence. -/
theorem extractCountry_jurisdiction_witness :
    extractCountry "xy" = none ∧
    extractCountry "Q v. Spain" = some "Spain" := by
  constructor
  · exact extractCountry_jurisdiction.2.2.1 "xy" (by decide)
  · have h := extractCountry_jurisdiction.2.2.2 ['Q', ' '] ' ' ['S', 'p', 'a', 'i', 'n']
      (by decide) (by decide) (by decide)
    exact h.trans (by decide)

/-! ## C3: not-found increment and refetch reset -/

/-- Helper: `find?` by key over a keyed in-place update. -/
theorem find?_mapUpdate (apps : List (String × AppRow)) (n : String) (f : AppRow → AppRow) :
    (apps.map (fun p => if p.1 = n then (p.1, f p.2) else p)).find? (fun p => p.1 = n)
      = (apps.find? (fun p => p.1 = n)).map (fun p => (p.1, f p.2)) := by
  induction apps with
  | nil => rfl
  | cons hd tl ih =>
    by_cases hk : hd.1 = n
    · simp [List.find?_cons, hk]
    · simp [List.find?_cons, hk, ih]

/-- Helper: a `markNotFound` statement rewrites exactly the row with the
given application number through `markRow`. -/
theorem lookupApp_mark (db : DB) (n : String) :
    (applyStmt db (.markNotFound n)).lookupApp n = (db.lookupApp n).map markRow := by
  have h1 : (applyStmt db (.markNotFound n)).apps
      = db.apps.map (fun p => if p.1 = n then (p.1, markRow p.2) else p) := by
    simp [applyStmt]
  unfold DB.lookupApp
  rw [h1, find?_mapUpdate]
  cases db.apps.find? (fun p => p.1 = n) <;> rfl

/-- Helper: an upsert whose application number is already present
rewrites exactly that row through `upsertRowOnConflict`. -/
theorem lookupApp_upsert_existing (db : DB) (d : CaseData)
    (h : (db.apps.find? (fun p => p.1 = d.applicationNumber)).isSome = true) :
    (applyStmt db (.upsertApp d)).lookupApp d.applicationNumber
      = (db.lookupApp d.applicationNumber).map (upsertRowOnConflict d) := by
  have h1 : (applyStmt db (.upsertApp d)).apps
      = db.apps.map
          (fun p => if p.1 = d.applicationNumber then (p.1, upsertRowOnConflict d p.2) else p) := by
    simp [applyStmt, h]
  unfold DB.lookupApp
  rw [h1, find?_mapUpdate]
  cases db.apps.find? (fun p => p.1 = d.applicationNumber) <;> rfl

/-- C3: on a persisted case (a row present for the application number),
one application of the not-found mark increments `not_found_count` by
exactly 1, and a successful-refetch upsert for the same application
number replaces the row by the freshly derived one: every derived field
is overwritten with the freshly fetched value and `not_found_count` is
exactly 0, with only the skip flag carried over from the old row;
nothing of the stale row is merged in. -/
theorem notfound_mark_and_refetch_reset
    (db : DB) (n : String) (row : AppRow) (h : db.lookupApp n = some row) :
    (applyStmt db (.markNotFound n)).lookupApp n = some (markRow row) ∧
    (markRow row).notFoundCount = row.notFoundCount + 1 ∧
    (∀ d : CaseData, d.applicationNumber = n →
      (applyStmt db (.upsertApp d)).lookupApp n =
        some { freshRow d with skipScraping := row.skipScraping } ∧
      ({ freshRow d with skipScraping := row.skipScraping } : AppRow).notFoundCount = 0) := by
  refine ⟨?_, rfl, ?_⟩
  · rw [lookupApp_mark, h]; rfl
  · intro d hd
    subst hd
    have hsome : (db.apps.find? (fun p => p.1 = d.applicationNumber)).isSome = true := by
      have := congrArg Option.isSome h
      simpa [DB.lookupApp] using this
    refine ⟨?_, rfl⟩
    rw [lookupApp_upsert_existing db d hsome, h]
    rfl

/-- Witness for C3 on a one-row database holding the sample case. -/
theorem notfound_mark_and_refetch_reset_witness :
    (applyStmt ⟨[("152/18", freshRow sampleCase)], [], []⟩
        (.markNotFound "152/18")).lookupApp "152/18"
      = some (markRow (freshRow sampleCase)) ∧
    (markRow (freshRow sampleCase)).notFoundCount = (freshRow sampleCase).notFoundCount + 1 ∧
    (applyStmt ⟨[("152/18", freshRow sampleCase)], [], []⟩
        (.upsertApp sampleCase)).lookupApp "152/18"
      = some { freshRow sampleCase with skipScraping := (freshRow sampleCase).skipScraping } := by
  have h := notfound_mark_and_refetch_reset
    ⟨[("152/18", freshRow sampleCase)], [], []⟩ "152/18" (freshRow sampleCase) (by decide)
  exact ⟨h.1, h.2.1, (h.2.2 sampleCase (by decide)).1⟩

/-! ## C4: skip-flag threshold -/

/-- Helper: along any fold of case operations, an unset skip flag
forces the counter below 60 (the mark operation either keeps the count
below 60 or sets the flag in the same step, and a refetch resets the
count to 0). -/
theorem foldl_caseOp_count_lt :
    ∀ (ops : List CaseOp) (r : AppRow),
      (r.skipScraping = false → r.notFoundCount < 60) →
      ((ops.foldl applyCaseOp r).skipScraping = false →
        (ops.foldl applyCaseOp r).notFoundCount < 60)
  | [], _, hr => hr
  | o :: rest, r, _ => by
    simp only [List.foldl_cons]
    apply foldl_caseOp_count_lt rest (applyCaseOp r o)
    cases o with
    | mark =>
      intro hskip
      by_cases hc : r.notFoundCount + 1 ≥ 60
      · simp [applyCaseOp, markRow, hc] at hskip
      · simp [applyCaseOp, markRow]; omega
    | refetch d =>
      intro _
      simp [applyCaseOp, upsertRowOnConflict, freshRow]

/-- Helper: on every row reachable from a freshly inserted one by marks
and refetches, an unset skip flag forces the counter below 60. -/
theorem runCaseOps_count_lt_of_not_skip (d0 : CaseData) (ops : List CaseOp)
    (h : (runCaseOps d0 ops).skipScraping = false) :
    (runCaseOps d0 ops).notFoundCount < 60 :=
  foldl_caseOp_count_lt ops (freshRow d0) (fun _ => by simp [freshRow]) h

/-- C4: the skip flag is monotone — once true, no later operation (a
further not-found mark or a successful refetch upsert) ever makes it
false again; a refetch upsert never changes it at all; and on any
reachable row with the flag still unset, one more not-found mark sets
the flag exactly when it brings the not-found counter to exactly the
threshold 60. -/
theorem skip_flag_threshold :
    (∀ (r : AppRow) (o : CaseOp),
      r.skipScraping = true → (applyCaseOp r o).skipScraping = true) ∧
    (∀ (r : AppRow) (d : CaseData),
      (applyCaseOp r (.refetch d)).skipScraping = r.skipScraping) ∧
    (∀ (d0 : CaseData) (ops : List CaseOp),
      (runCaseOps d0 ops).skipScraping = false →
      ((applyCaseOp (runCaseOps d0 ops) .mark).skipScraping = true ↔
        (applyCaseOp (runCaseOps d0 ops) .mark).notFoundCount = 60)) := by
  refine ⟨?_, fun r d => rfl, ?_⟩
  · intro r o h
    cases o with
    | mark =>
      simp only [applyCaseOp, markRow]
      split <;> simp [h]
    | refetch d =>
      simpa [applyCaseOp, upsertRowOnConflict] using h
  · intro d0 ops hskip
    have hlt := runCaseOps_count_lt_of_not_skip d0 ops hskip
    simp only [applyCaseOp, markRow, hskip]
    constructor
    · intro ht
      by_cases hc : (runCaseOps d0 ops).notFoundCount + 1 ≥ 60
      · omega
      · simp [hc] at ht
    · intro hc
      have hge : (runCaseOps d0 ops).notFoundCount + 1 ≥ 60 := by omega
      simp [hge]

/-- Witness for C4: a row with the flag already set stays set under a
mark, and after 59 marks on a fresh sample row the 60th mark sets the
flag exactly as the counter hits 60. -/
theorem skip_flag_threshold_witness :
    (applyCaseOp { freshRow sampleCase with skipScraping := true } .mark).skipScraping = true ∧
    ((applyCaseOp (runCaseOps sampleCase (List.replicate 59 .mark)) .mark).skipScraping = true ↔
      (applyCaseOp (runCaseOps sampleCase (List.replicate 59 .mark)) .mark).notFoundCount = 60) :=
  ⟨skip_flag_threshold.1 { freshRow sampleCase with skipScraping := true } .mark rfl,
   skip_flag_threshold.2.2 sampleCase (List.replicate 59 .mark) (by decide)⟩

/-! ## C1: event mirror invariant -/

/-- Helper: statement lists compose sequentially. -/
theorem applyStmts_append (a b : List Stmt) (db : DB) :
    applyStmts (a ++ b) db = applyStmts b (applyStmts a db) := by
  simp [applyStmts, List.foldl_append]

/-- Helper: deleting another case's events keeps this case's rows. -/
theorem filter_key_filter_ne (evts : List (String × EventRow)) (m n : String) (h : ¬ m = n) :
    (evts.filter (fun p => ¬ p.1 = m)).filter (fun p => p.1 = n)
      = evts.filter (fun p => p.1 = n) := by
  rw [List.filter_filter]
  apply List.filter_congr
  intro p _
  by_cases hp : p.1 = n
  · have hnm : ¬ n = m := fun e => h e.symm
    simp [hp, hnm]
  · simp [hp]

/-- Helper: rows inserted under another key are invisible to this key. -/
theorem filter_key_map_ne (rows : List EventRow) (m n : String) (h : ¬ m = n) :
    (rows.map (fun r => (m, r))).filter (fun p => p.1 = n) = [] := by
  induction rows with
  | nil => rfl
  | cons r rows ih => simp [List.filter_cons, h, ih]

/-- Helper: deleting a key's events leaves nothing under that key. -/
theorem filter_key_after_delete (evts : List (String × EventRow)) (n : String) :
    (evts.filter (fun p => ¬ p.1 = n)).filter (fun p => p.1 = n) = [] := by
  induction evts with
  | nil => rfl
  | cons hd tl ih => by_cases hp : hd.1 = n <;> simp [List.filter_cons, hp, ih]

/-- Helper: rows inserted under a key are recovered in full and in
order under that key. -/
theorem filterMap_key_self (rows : List EventRow) (n : String) :
    ((rows.map (fun r => (n, r))).filter (fun p => p.1 = n)).map (fun p => p.2) = rows := by
  induction rows with
  | nil => rfl
  | cons r rows ih => simp [List.filter_cons, ih]

/-- Helper: a statement not touching this case's events preserves its
persisted event rows. -/
theorem eventsFor_applyStmt_untouched (db : DB) (s : Stmt) (n : String)
    (h : touchesEvents n s = false) :
    (applyStmt db s).eventsFor n = db.eventsFor n := by
  cases s with
  | insertReps names => rfl
  | upsertApp d =>
    have he : (applyStmt db (.upsertApp d)).events = db.events := by
      simp only [applyStmt]
      split <;> rfl
    unfold DB.eventsFor
    rw [he]
  | markNotFound m => rfl
  | deleteEvents m =>
    simp only [touchesEvents, decide_eq_false_iff_not] at h
    unfold DB.eventsFor
    simp only [applyStmt]
    rw [filter_key_filter_ne db.events m n h]
  | insertEvents m rows =>
    simp only [touchesEvents, decide_eq_false_iff_not] at h
    unfold DB.eventsFor
    simp only [applyStmt]
    rw [List.filter_append, filter_key_map_ne rows m n h, List.append_nil]

/-- Helper: a whole statement list not touching this case's events
preserves its persisted event rows. -/
theorem eventsFor_applyStmts_untouched (n : String) :
    ∀ (stmts : List Stmt) (db : DB),
      (∀ s ∈ stmts, touchesEvents n s = false) →
      (applyStmts stmts db).eventsFor n = db.eventsFor n
  | [], _, _ => rfl
  | s :: rest, db, h => by
    have hrest := eventsFor_applyStmts_untouched n rest (applyStmt db s)
      (fun t ht => h t (List.mem_cons_of_mem s ht))
    have hs := eventsFor_applyStmt_untouched db s n (h s (List.mem_cons_self s rest))
    show (applyStmts rest (applyStmt db s)).eventsFor n = db.eventsFor n
    rw [hrest, hs]

/-- Helper: after the delete/insert group built for one case, that
case's persisted event rows are exactly the rows derived from its
fetched event list — including the empty list, for which only the
DELETE is emitted and zero rows remain. -/
theorem eventsFor_caseEventStmts (db : DB) (d : CaseData) :
    (applyStmts (caseEventStmts d) db).eventsFor d.applicationNumber
      = eventRowsOf d.majorEventsList := by
  unfold caseEventStmts
  by_cases he : d.majorEventsList.isEmpty
  · rw [if_pos he]
    have hnil : d.majorEventsList = [] := by simpa using he
    rw [hnil]
    show (applyStmt db (.deleteEvents d.applicationNumber)).eventsFor d.applicationNumber
      = eventRowsOf []
    unfold DB.eventsFor applyStmt
    rw [filter_key_after_delete]
    rfl
  · rw [if_neg he]
    show (applyStmt (applyStmt db (.deleteEvents d.applicationNumber))
        (.insertEvents d.applicationNumber (eventRowsOf d.majorEventsList))).eventsFor
          d.applicationNumber = eventRowsOf d.majorEventsList
    unfold DB.eventsFor applyStmt
    rw [List.filter_append, List.map_append, filter_key_after_delete,
      filterMap_key_self]
    rfl

/-- Helper: the derived event-row list has one row per fetched event. -/
theorem eventRowsOf_length (evs : List CaseEvent) :
    (eventRowsOf evs).length = evs.length := by
  simp [eventRowsOf]

/-- Helper: in the derived event-row list the `is_last_event` flag is
set exactly on the final index. -/
theorem eventRowsOf_isLast (evs : List CaseEvent) (i : Nat)
    (h : i < (eventRowsOf evs).length) :
    ((eventRowsOf evs).get ⟨i, h⟩).isLastEvent = true ↔ i + 1 = evs.length := by
  have hi : i < evs.length := by
    have := eventRowsOf_length evs
    omega
  simp [eventRowsOf, List.get_eq_getElem, List.getElem_zipWith, List.getElem_range]

/-- C1: after the batch persistence script built by
`buildBatchSQLWithReps` runs, the persisted event set of every case of
the batch (with distinct application numbers) exactly equals the rows
derived from its fetched event sequence: same list, hence the same
count, the `is_last_event` flag true exactly on the chronologically
final element, and zero persisted events when the fetched sequence is
empty — whatever events were persisted before are gone, never merged. -/
theorem event_mirror_invariant (db : DB) (casesData : List CaseData) (d : CaseData)
    (hmem : d ∈ casesData)
    (hnodup : (casesData.map (fun c => c.applicationNumber)).Nodup) :
    (applyStmts (buildBatchStmts casesData) db).eventsFor d.applicationNumber
      = eventRowsOf d.majorEventsList ∧
    ((applyStmts (buildBatchStmts casesData) db).eventsFor d.applicationNumber).length
      = d.majorEventsList.length ∧
    (∀ (i : Nat)
      (h : i < ((applyStmts (buildBatchStmts casesData) db).eventsFor d.applicationNumber).length),
      (((applyStmts (buildBatchStmts casesData) db).eventsFor d.applicationNumber).get
          ⟨i, h⟩).isLastEvent = true ↔ i + 1 = d.majorEventsList.length) ∧
    (d.majorEventsList = [] →
      (applyStmts (buildBatchStmts casesData) db).eventsFor d.applicationNumber = []) := by
  obtain ⟨l1, l2, rfl⟩ := List.append_of_mem hmem
  have hl2 : ∀ c ∈ l2, ¬ c.applicationNumber = d.applicationNumber := by
    have h1 : ((l1 ++ d :: l2).map (fun c => c.applicationNumber)).Nodup := hnodup
    rw [List.map_append, List.map_cons] at h1
    have h2 := h1.of_append_right
    rw [List.nodup_cons] at h2
    intro c hc he
    exact h2.1 (by rw [← he]; exact List.mem_map_of_mem _ hc)
  have key : (applyStmts (buildBatchStmts (l1 ++ d :: l2)) db).eventsFor d.applicationNumber
      = eventRowsOf d.majorEventsList := by
    unfold buildBatchStmts
    rw [applyStmts_append]
    rw [show (l1 ++ d :: l2).flatMap caseEventStmts
          = l1.flatMap caseEventStmts ++ (caseEventStmts d ++ l2.flatMap caseEventStmts) by
        rw [List.flatMap_append, List.flatMap_cons]]
    rw [applyStmts_append, applyStmts_append]
    rw [eventsFor_applyStmts_untouched d.applicationNumber (l2.flatMap caseEventStmts) _ ?side]
    · exact eventsFor_caseEventStmts _ d
    case side =>
      intro s hs
      rw [List.mem_flatMap] at hs
      obtain ⟨c, hc, hsc⟩ := hs
      have hcn := hl2 c hc
      unfold caseEventStmts at hsc
      rw [List.mem_cons] at hsc
      rcases hsc with rfl | hsc
      · simpa [touchesEvents] using hcn
      · split at hsc
        · cases hsc
        · rw [List.mem_singleton] at hsc
          subst hsc
          simpa [touchesEvents] using hcn
  refine ⟨key, ?_, ?_, ?_⟩
  · rw [key, eventRowsOf_length]
  · intro i h0
    rw [List.get_of_eq key ⟨i, h0⟩]
    exact eventRowsOf_isLast d.majorEventsList i _
  · intro hnil
    rw [key, hnil]
    rfl

/-- Witness for C1: a two-case batch over an initially non-empty event
table; the sample case's persisted events mirror its two fetched
events. -/
theorem event_mirror_invariant_witness :
    (applyStmts
        (buildBatchStmts [sampleCase, { sampleCase with applicationNumber := "153/18" }])
        ⟨[], [("152/18", ⟨none, "stale", true⟩)], []⟩).eventsFor "152/18"
      = eventRowsOf sampleCase.majorEventsList := by
  have h := event_mirror_invariant ⟨[], [("152/18", ⟨none, "stale", true⟩)], []⟩
    [sampleCase, { sampleCase with applicationNumber := "153/18" }] sampleCase
    (by decide) (by decide)
  exact h.1

/-! ## Crawl-loop bookkeeping lemmas (used by C2, C5, C6, C7, C10) -/

/-- Helper: a flush never changes the run statistics. -/
theorem flushBatch_stats (po : PersistOracle) (st : MState) :
    (flushBatch po st).stats = st.stats := by
  unfold flushBatch
  split
  · rfl
  · unfold saveBatchCounts
    split
    · split <;> rfl
    · rfl

/-- Helper: a flush never changes the ghost increment total. -/
theorem flushBatch_ghost (po : PersistOracle) (st : MState) :
    (flushBatch po st).attemptIncTotal = st.attemptIncTotal := by
  unfold flushBatch
  split
  · rfl
  · unfold saveBatchCounts
    split
    · split <;> rfl
    · rfl

/-- Helper: a flush emits no markAsNotFound statement. -/
theorem flushBatch_countMarked (po : PersistOracle) (st : MState) :
    countMarked (flushBatch po st).effects = countMarked st.effects := by
  unfold flushBatch
  split
  · rfl
  · unfold saveBatchCounts
    split
    · split <;> simp [countMarked, List.countP_append, List.countP_cons]
    · simp [countMarked, List.countP_append, List.countP_cons]

/-- Helper: the sequential-fallback counts partition the batch. -/
theorem fallbackCounts_sum (po : PersistOracle) (base len : Nat) :
    (fallbackCounts po base len).1 + (fallbackCounts po base len).2 = len := by
  unfold fallbackCounts
  have h := List.countP_le_length (l := List.range len)
    (p := fun i => po.singleOk (base + i))
  simp at h ⊢
  omega

/-- Helper: a flush only adds consistent flush reports. -/
theorem flushBatch_flushedOk (po : PersistOracle) (st : MState)
    (h : ∀ e ∈ st.effects, flushedOk e) :
    ∀ e ∈ (flushBatch po st).effects, flushedOk e := by
  unfold flushBatch
  split
  · exact h
  · unfold saveBatchCounts
    split
    · split
      · intro e he
        rcases List.mem_append.mp he with h1 | h2
        · exact h e h1
        · rw [List.mem_singleton] at h2
          subst h2
          simp [flushedOk]
      · intro e he
        rcases List.mem_append.mp he with h1 | h2
        · exact h e h1
        · rw [List.mem_singleton] at h2
          subst h2
          exact fallbackCounts_sum po _ _
    · intro e he
      rcases List.mem_append.mp he with h1 | h2
      · exact h e h1
      · rw [List.mem_singleton] at h2
        subst h2
        exact fallbackCounts_sum po _ _

/-- Helper: the flush check never changes the statistics. -/
theorem maybeFlush_stats (po : PersistOracle) (st : MState) :
    (maybeFlush po st).stats = st.stats := by
  unfold maybeFlush
  split
  · exact flushBatch_stats po st
  · rfl

/-- Helper: the flush check never changes the ghost increment total. -/
theorem maybeFlush_ghost (po : PersistOracle) (st : MState) :
    (maybeFlush po st).attemptIncTotal = st.attemptIncTotal := by
  unfold maybeFlush
  split
  · exact flushBatch_ghost po st
  · rfl

/-- Helper: the flush check emits no markAsNotFound statement. -/
theorem maybeFlush_countMarked (po : PersistOracle) (st : MState) :
    countMarked (maybeFlush po st).effects = countMarked st.effects := by
  unfold maybeFlush
  split
  · exact flushBatch_countMarked po st
  · rfl

/-- Helper: the flush check only adds consistent flush reports. -/
theorem maybeFlush_flushedOk (po : PersistOracle) (st : MState)
    (h : ∀ e ∈ st.effects, flushedOk e) :
    ∀ e ∈ (maybeFlush po st).effects, flushedOk e := by
  unfold maybeFlush
  split
  · exact flushBatch_flushedOk po st h
  · exact h

/-- Helper: every attempt increments `totalChecked` exactly once. -/
theorem attemptStep_totalChecked (po : PersistOracle) (st : MState) (skips : Nat) (o : Outcome) :
    (attemptStep po st skips o).1.stats.totalChecked = st.stats.totalChecked + 1 := by
  cases o <;> simp [attemptStep, maybeFlush_stats]

/-- Helper: an attempt increments `errors` exactly on a fetch error. -/
theorem attemptStep_errors (po : PersistOracle) (st : MState) (skips : Nat) (o : Outcome) :
    (attemptStep po st skips o).1.stats.errors
      = st.stats.errors + (if o = .fetchError then 1 else 0) := by
  cases o <;> simp [attemptStep, maybeFlush_stats]

/-- Helper: an attempt increments `found` exactly on a found record. -/
theorem attemptStep_found (po : PersistOracle) (st : MState) (skips : Nat) (o : Outcome) :
    (attemptStep po st skips o).1.stats.found
      = st.stats.found + (match o with | .found _ => 1 | _ => 0) := by
  cases o <;> simp [attemptStep, maybeFlush_stats]

/-- Helper: an attempt increments `notFound` exactly on a null result. -/
theorem attemptStep_notFound (po : PersistOracle) (st : MState) (skips : Nat) (o : Outcome) :
    (attemptStep po st skips o).1.stats.notFound
      = st.stats.notFound + (if o = .notfound then 1 else 0) := by
  cases o <;> simp [attemptStep, maybeFlush_stats]

/-- Helper: the attempt counter is incremented once per attempt on the
found and not-found paths but twice on the fetch-error path. -/
theorem attemptStep_ghost (po : PersistOracle) (st : MState) (skips : Nat) (o : Outcome) :
    (attemptStep po st skips o).1.attemptIncTotal
      = st.attemptIncTotal + (if o = .fetchError then 2 else 1) := by
  cases o <;> simp [attemptStep, maybeFlush_ghost]

/-- Helper: no attempt emits a markAsNotFound statement. -/
theorem attemptStep_countMarked (po : PersistOracle) (st : MState) (skips : Nat) (o : Outcome) :
    countMarked (attemptStep po st skips o).1.effects = countMarked st.effects := by
  cases o <;> simp [attemptStep, maybeFlush_countMarked]

/-- Helper: attempts only add consistent flush reports. -/
theorem attemptStep_flushedOk (po : PersistOracle) (st : MState) (skips : Nat) (o : Outcome)
    (h : ∀ e ∈ st.effects, flushedOk e) :
    ∀ e ∈ (attemptStep po st skips o).1.effects, flushedOk e := by
  cases o <;>
    (simp only [attemptStep]
     exact maybeFlush_flushedOk po _ h)

/-- Helper: a year segment stopped by the skip threshold consumes no
outcome. -/
theorem runSegment_stop (cfg : Config) (po : PersistOracle) (skips : Nat) (st : MState)
    (outcomes : List Outcome) (h : ¬ skips < cfg.maxConsecutiveSkips) :
    runSegment cfg po skips st outcomes = (st, outcomes) := by
  cases outcomes
  · rfl
  · unfold runSegment
    rw [if_neg h]

/-- Helper: preservation of a state predicate through one year segment. -/
theorem runSegment_pres (cfg : Config) (po : PersistOracle) (P : MState → Prop)
    (hstep : ∀ st skips o, P st → P (attemptStep po st skips o).1) :
    ∀ (outcomes : List Outcome) (skips : Nat) (st : MState),
      P st → P (runSegment cfg po skips st outcomes).1
  | [], _, _, h => h
  | o :: rest, skips, st, h => by
    unfold runSegment
    split
    · exact runSegment_pres cfg po P hstep rest _ _ (hstep st skips o h)
    · exact h

/-- Helper: preservation of a state predicate through the year loop. -/
theorem runYears_pres (cfg : Config) (po : PersistOracle) (P : MState → Prop)
    (hstep : ∀ st skips o, P st → P (attemptStep po st skips o).1)
    (hend : ∀ st, P st → P (endSegment po st)) :
    ∀ (fuel : Nat) (st : MState) (outcomes : List Outcome),
      P st → P (runYears cfg po fuel st outcomes).1
  | 0, _, _, h => h
  | fuel + 1, st, outcomes, h => by
    unfold runYears
    split
    · exact h
    · exact runYears_pres cfg po P hstep hend fuel _ _
        (hend _ (runSegment_pres cfg po P hstep outcomes 0 st h))

/-- Helper: preservation of a state predicate through a whole run. -/
theorem runMonthly_pres (cfg : Config) (po : PersistOracle) (P : MState → Prop)
    (hstep : ∀ st skips o, P st → P (attemptStep po st skips o).1)
    (hend : ∀ st, P st → P (endSegment po st))
    (hflush : ∀ st, P st → P (flushBatch po st))
    (hfinal : ∀ st, P st → P { st with effects := st.effects ++ [Effect.finalStatsReport] })
    (hinit : P (initState cfg)) (outcomes : List Outcome) :
    P (runMonthly cfg po outcomes) := by
  unfold runMonthly
  exact hfinal _ (hflush _
    (runYears_pres cfg po P hstep hend (cfg.maxYear + 1 - cfg.startYear)
      (initState cfg) outcomes hinit))

/-! ## C10: statistics partition -/

/-- C10: each bulk-crawl iteration increments `totalChecked` exactly
once and exactly one of `found`, `notFound` and `errors`; hence the
partition found + notFound + errors = totalChecked is preserved by
every iteration and holds for the final printed summary of every run. -/
theorem stats_partition_invariant :
    (∀ (po : PersistOracle) (st : MState) (skips : Nat) (o : Outcome),
      st.stats.found + st.stats.notFound + st.stats.errors = st.stats.totalChecked →
      (attemptStep po st skips o).1.stats.found
          + (attemptStep po st skips o).1.stats.notFound
          + (attemptStep po st skips o).1.stats.errors
        = (attemptStep po st skips o).1.stats.totalChecked) ∧
    (∀ (cfg : Config) (po : PersistOracle) (outcomes : List Outcome),
      (runMonthly cfg po outcomes).stats.found
          + (runMonthly cfg po outcomes).stats.notFound
          + (runMonthly cfg po outcomes).stats.errors
        = (runMonthly cfg po outcomes).stats.totalChecked) := by
  have hstep : ∀ (po : PersistOracle) (st : MState) (skips : Nat) (o : Outcome),
      st.stats.found + st.stats.notFound + st.stats.errors = st.stats.totalChecked →
      (attemptStep po st skips o).1.stats.found
          + (attemptStep po st skips o).1.stats.notFound
          + (attemptStep po st skips o).1.stats.errors
        = (attemptStep po st skips o).1.stats.totalChecked := by
    intro po st skips o h
    rw [attemptStep_found, attemptStep_notFound, attemptStep_errors, attemptStep_totalChecked]
    cases o <;> simp <;> omega
  refine ⟨hstep, ?_⟩
  intro cfg po outcomes
  exact runMonthly_pres cfg po
    (fun st => st.stats.found + st.stats.notFound + st.stats.errors = st.stats.totalChecked)
    (hstep po)
    (fun st h => by simpa [endSegment, flushBatch_stats] using h)
    (fun st h => by simpa [flushBatch_stats] using h)
    (fun st h => h)
    rfl outcomes

/-- Witness for C10 at one concrete not-found step from the initial
state. -/
theorem stats_partition_invariant_witness :
    (attemptStep allOk (initState sampleConfig) 0 .notfound).1.stats.found
        + (attemptStep allOk (initState sampleConfig) 0 .notfound).1.stats.notFound
        + (attemptStep allOk (initState sampleConfig) 0 .notfound).1.stats.errors
      = (attemptStep allOk (initState sampleConfig) 0 .notfound).1.stats.totalChecked :=
  stats_partition_invariant.1 allOk (initState sampleConfig) 0 .notfound (by decide)

/-! ## C6: attempt-counter increments -/

/-- C6 (counterexample): a run consisting of one fetch-error attempt
performs 2 attempt-counter increments, not 1 — the try block increments
before the fetch throws, and the catch block increments again — so the
increment count differs from the attempt count. -/
theorem attempt_counter_double_increment :
    (runMonthly sampleConfig allOk [Outcome.fetchError]).attemptIncTotal = 2 ∧
    (runMonthly sampleConfig allOk [Outcome.fetchError]).stats.totalChecked = 1 ∧
    ¬((runMonthly sampleConfig allOk [Outcome.fetchError]).attemptIncTotal
        = (runMonthly sampleConfig allOk [Outcome.fetchError]).stats.totalChecked) := by
  decide

/-- C6 (amended): per fetch attempt, the batch attempt counter is
incremented exactly once on found and not-found outcomes and exactly
twice on a fetch-error outcome; over any whole run the number of
increments is totalChecked + errors. -/
theorem attempt_counter_increments :
    (∀ (po : PersistOracle) (st : MState) (skips : Nat) (o : Outcome),
      (attemptStep po st skips o).1.attemptIncTotal
        = st.attemptIncTotal + (if o = .fetchError then 2 else 1)) ∧
    (∀ (cfg : Config) (po : PersistOracle) (outcomes : List Outcome),
      (runMonthly cfg po outcomes).attemptIncTotal
        = (runMonthly cfg po outcomes).stats.totalChecked
          + (runMonthly cfg po outcomes).stats.errors) := by
  refine ⟨fun po st skips o => attemptStep_ghost po st skips o, ?_⟩
  intro cfg po outcomes
  exact runMonthly_pres cfg po
    (fun st => st.attemptIncTotal = st.stats.totalChecked + st.stats.errors)
    (fun st skips o h => by
      dsimp only at h ⊢
      rw [attemptStep_ghost, attemptStep_totalChecked, attemptStep_errors, h]
      cases o <;> simp <;> omega)
    (fun st h => by simpa [endSegment, flushBatch_stats, flushBatch_ghost] using h)
    (fun st h => by simpa [flushBatch_stats, flushBatch_ghost] using h)
    (fun st h => h)
    rfl outcomes

/-! ## C2: no not-found statement from the bulk loop -/

/-- C2 (counterexample): a bulk crawl run whose single attempt is a
not-found result issues no markAsNotFound statement at all — the claim
requires an immediate not-found-counter statement for that attempt, but
only the statistics change. -/
theorem bulk_notfound_no_statement :
    countMarked (runMonthly sampleConfig allOk [Outcome.notfound]).effects = 0 ∧
    (runMonthly sampleConfig allOk [Outcome.notfound]).stats.notFound = 1 := by decide

/-- C2 (amended): the bulk crawl loop never issues a markAsNotFound
statement on any path (the statement exists in the adapter but only the
weekly scraper calls it); failure and not-found outcomes touch only
counters — they never extend the batch queue (at a flush boundary they
can only leave it cleared) — so the record-bearing success path is the
only one that reaches persistence, via the buffer. -/
theorem bulk_loop_no_notfound_statement :
    (∀ (cfg : Config) (po : PersistOracle) (outcomes : List Outcome),
      countMarked (runMonthly cfg po outcomes).effects = 0) ∧
    (∀ (po : PersistOracle) (st : MState) (skips : Nat) (o : Outcome),
      o = .notfound ∨ o = .fetchError →
      ((attemptStep po st skips o).1.batchQueue = st.batchQueue ∨
        (attemptStep po st skips o).1.batchQueue = [])) := by
  constructor
  · intro cfg po outcomes
    exact runMonthly_pres cfg po (fun st => countMarked st.effects = 0)
      (fun st skips o h => by dsimp only at h ⊢; rw [attemptStep_countMarked]; exact h)
      (fun st h => by simpa [endSegment, flushBatch_countMarked] using h)
      (fun st h => by dsimp only at h ⊢; rw [flushBatch_countMarked]; exact h)
      (fun st h => by simpa [countMarked, List.countP_append, List.countP_cons] using h)
      rfl outcomes
  · intro po st skips o ho
    rcases ho with rfl | rfl <;>
    · simp only [attemptStep]
      unfold maybeFlush
      split
      · unfold flushBatch
        split
        · left; rfl
        · right; rfl
      · left; rfl

/-- Witness for C2's amended theorem: one concrete not-found step from
the initial state leaves the batch queue untouched. -/
theorem bulk_loop_no_notfound_statement_witness :
    (attemptStep allOk (initState sampleConfig) 0 .notfound).1.batchQueue
        = (initState sampleConfig).batchQueue ∨
    (attemptStep allOk (initState sampleConfig) 0 .notfound).1.batchQueue = [] :=
  bulk_loop_no_notfound_statement.2 allOk (initState sampleConfig) 0 .notfound (Or.inl rfl)

/-! ## C7: errors become statistics, the run completes -/

/-- Helper: error counts add over list concatenation. -/
theorem countErrors_append (a b : List Outcome) :
    countErrors (a ++ b) = countErrors a + countErrors b := by
  simp [countErrors, List.countP_append]

/-- Helper: a year segment consumes a prefix of the outcome list,
counting every consumed attempt in `totalChecked` and every consumed
fetch error in `errors`. -/
theorem runSegment_consume (cfg : Config) (po : PersistOracle) :
    ∀ (outcomes : List Outcome) (skips : Nat) (st : MState),
      ∃ k, k ≤ outcomes.length ∧
        (runSegment cfg po skips st outcomes).2 = outcomes.drop k ∧
        (runSegment cfg po skips st outcomes).1.stats.totalChecked
          = st.stats.totalChecked + k ∧
        (runSegment cfg po skips st outcomes).1.stats.errors
          = st.stats.errors + countErrors (outcomes.take k)
  | [], skips, st => by
    refine ⟨0, by simp, rfl, by simp [runSegment], by simp [runSegment, countErrors]⟩
  | o :: rest, skips, st => by
    unfold runSegment
    split
    · obtain ⟨k, hk, hdrop, htot, herr⟩ :=
        runSegment_consume cfg po rest (attemptStep po st skips o).2 (attemptStep po st skips o).1
      refine ⟨k + 1, ?_, ?_, ?_, ?_⟩
      · simpa using Nat.succ_le_succ hk
      · simpa using hdrop
      · rw [htot, attemptStep_totalChecked]; omega
      · rw [herr, attemptStep_errors]
        have hcount : countErrors ((o :: rest).take (k + 1))
            = countErrors (rest.take k) + (if o = .fetchError then 1 else 0) := by
          cases o <;> simp [countErrors, List.take_succ_cons, List.countP_cons]
        rw [hcount]
        omega
    · exact ⟨0, by simp, rfl, by simp [runSegment_stop _ _ _ _ _ (by assumption)],
        by simp [runSegment_stop _ _ _ _ _ (by assumption), countErrors]⟩

/-- Helper: ending a year segment keeps the statistics. -/
theorem endSegment_stats (po : PersistOracle) (st : MState) :
    (endSegment po st).stats = st.stats := by
  unfold endSegment
  simp [flushBatch_stats]

/-- Helper: the year loop consumes a prefix of the outcome list,
counting every consumed attempt in `totalChecked` and every consumed
fetch error in `errors`. -/
theorem runYears_consume (cfg : Config) (po : PersistOracle) :
    ∀ (fuel : Nat) (st : MState) (outcomes : List Outcome),
      ∃ k, k ≤ outcomes.length ∧
        (runYears cfg po fuel st outcomes).2 = outcomes.drop k ∧
        (runYears cfg po fuel st outcomes).1.stats.totalChecked
          = st.stats.totalChecked + k ∧
        (runYears cfg po fuel st outcomes).1.stats.errors
          = st.stats.errors + countErrors (outcomes.take k)
  | 0, st, outcomes => ⟨0, by simp, rfl, by simp [runYears], by simp [runYears, countErrors]⟩
  | fuel + 1, st, outcomes => by
    unfold runYears
    split
    · exact ⟨0, by simp, rfl, by simp, by simp [countErrors]⟩
    · obtain ⟨k1, hk1, hd1, ht1, he1⟩ := runSegment_consume cfg po outcomes 0 st
      obtain ⟨k2, hk2, hd2, ht2, he2⟩ := runYears_consume cfg po fuel
        (endSegment po (runSegment cfg po 0 st outcomes).1)
        (runSegment cfg po 0 st outcomes).2
      have hsplit : outcomes.take (k1 + k2)
          = outcomes.take k1 ++ (outcomes.drop k1).take k2 := List.take_add outcomes k1 k2
      refine ⟨k1 + k2, ?_, ?_, ?_, ?_⟩
      · rw [hd1, List.length_drop] at hk2
        omega
      · rw [hd2, hd1, List.drop_drop, Nat.add_comm]
      · rw [ht2, endSegment_stats, ht1]; omega
      · rw [he2, endSegment_stats, he1, hd1, hsplit, countErrors_append]
        omega

/-- C7: for every sequence of fetch outcomes and every persistence
oracle — the Import API absent, bulk uploads failing, individual
fallback saves failing — the bulk crawl run completes normally: it
consumes a prefix of the attempts, every consumed fetch error is
converted into the `errors` statistic, every flush that happened is
reported with success/failure counts that partition its batch, and the
run reaches its final statistics report (it never aborts). -/
theorem run_never_aborts (cfg : Config) (po : PersistOracle) (outcomes : List Outcome) :
    (runMonthly cfg po outcomes).stats.totalChecked ≤ outcomes.length ∧
    (runMonthly cfg po outcomes).stats.errors
      = countErrors (outcomes.take (runMonthly cfg po outcomes).stats.totalChecked) ∧
    (runMonthly cfg po outcomes).effects.getLast? = some Effect.finalStatsReport ∧
    (∀ e ∈ (runMonthly cfg po outcomes).effects, flushedOk e) := by
  obtain ⟨k, hk, _, ht, he⟩ := runYears_consume cfg po (cfg.maxYear + 1 - cfg.startYear)
    (initState cfg) outcomes
  have hstats : (runMonthly cfg po outcomes).stats
      = (runYears cfg po (cfg.maxYear + 1 - cfg.startYear) (initState cfg) outcomes).1.stats := by
    unfold runMonthly
    simp [flushBatch_stats]
  have htot : (runMonthly cfg po outcomes).stats.totalChecked = k := by
    rw [hstats, ht]
    simp [initState]
  have herr : (runMonthly cfg po outcomes).stats.errors = countErrors (outcomes.take k) := by
    rw [hstats, he]
    simp [initState]
  refine ⟨by rw [htot]; exact hk, by rw [herr, htot], ?_, ?_⟩
  · show ((flushBatch po
        (runYears cfg po (cfg.maxYear + 1 - cfg.startYear) (initState cfg) outcomes).1).effects
          ++ [Effect.finalStatsReport]).getLast? = some Effect.finalStatsReport
    rw [List.getLast?_concat]
  · exact runMonthly_pres cfg po (fun st => ∀ e ∈ st.effects, flushedOk e)
      (fun st skips o h => attemptStep_flushedOk po st skips o h)
      (fun st h => by
        unfold endSegment
        exact flushBatch_flushedOk po st h)
      (fun st h => flushBatch_flushedOk po st h)
      (fun st h => by
        intro e he
        rcases List.mem_append.mp he with h1 | h2
        · exact h e h1
        · rw [List.mem_singleton] at h2
          subst h2
          trivial)
      (by intro e he; cases he)
      outcomes

/-- Witness for C7: in a concrete one-found-record run the final report
is emitted and the single flush report partitions its batch. -/
theorem run_never_aborts_witness :
    (runMonthly sampleConfig allOk [Outcome.found sampleCase]).effects.getLast?
        = some Effect.finalStatsReport ∧
    flushedOk (Effect.flushed [sampleCase] 1 0) := by
  refine ⟨(run_never_aborts sampleConfig allOk [Outcome.found sampleCase]).2.2.1, ?_⟩
  exact (run_never_aborts sampleConfig allOk [Outcome.found sampleCase]).2.2.2
    (Effect.flushed [sampleCase] 1 0) (by decide)

/-! ## C5: year-segment termination -/

/-- C5 (counterexample): with `startNumber = 5` and the claimed outcome
sequence, the identifier after the year segment ends is 1, not
`startNumber` — the source resets to the literal 1 (`currentNumber = 1`). -/
theorem year_segment_reset_not_startNumber :
    (runMonthly sampleConfig allOk
        [Outcome.found sampleCase, Outcome.notfound, Outcome.notfound,
          Outcome.notfound]).currentNumber = 1 ∧
    ¬((runMonthly sampleConfig allOk
        [Outcome.found sampleCase, Outcome.notfound, Outcome.notfound,
          Outcome.notfound]).currentNumber = sampleConfig.startNumber) := by
  decide

/-- C5 (amended): with `maxConsecutiveSkips = 3` and the outcome
sequence [found, notfound, notfound, notfound] for year 19, the year
segment terminates after the 4th attempt (whatever outcomes would
follow), the buffer holding the one found record is flushed, the run
advances to year 20, and the identifier is reset to the literal 1 —
`startNumber` only seeds the first segment. -/
theorem year_segment_termination (s : Nat) (d : CaseData) (rest : List Outcome) :
    (runMonthly { startYear := 19, maxYear := 19, maxConsecutiveSkips := 3, startNumber := s }
        allOk (Outcome.found d :: Outcome.notfound :: Outcome.notfound ::
          Outcome.notfound :: rest)).stats.totalChecked = 4 ∧
    (runMonthly { startYear := 19, maxYear := 19, maxConsecutiveSkips := 3, startNumber := s }
        allOk (Outcome.found d :: Outcome.notfound :: Outcome.notfound ::
          Outcome.notfound :: rest)).currentYear = 20 ∧
    (runMonthly { startYear := 19, maxYear := 19, maxConsecutiveSkips := 3, startNumber := s }
        allOk (Outcome.found d :: Outcome.notfound :: Outcome.notfound ::
          Outcome.notfound :: rest)).currentNumber = 1 ∧
    (runMonthly { startYear := 19, maxYear := 19, maxConsecutiveSkips := 3, startNumber := s }
        allOk (Outcome.found d :: Outcome.notfound :: Outcome.notfound ::
          Outcome.notfound :: rest)).effects
      = [Effect.flushed [d] 1 0, Effect.finalStatsReport] := by
  have hrun : runMonthly { startYear := 19, maxYear := 19, maxConsecutiveSkips := 3, startNumber := s }
        allOk (Outcome.found d :: Outcome.notfound :: Outcome.notfound ::
          Outcome.notfound :: rest)
      = { batchQueue := [], attemptCounter := 0,
          stats := { found := 1, notFound := 3, errors := 0, totalChecked := 4 },
          currentYear := 20, currentNumber := 1, bulkIdx := 1, singleIdx := 0,
          effects := [Effect.flushed [d] 1 0, Effect.finalStatsReport],
          attemptIncTotal := 4 } := by
    simp [runMonthly, runYears, runSegment, runSegment_stop, attemptStep, maybeFlush,
      flushBatch, saveBatchCounts, fallbackCounts, endSegment, initState, allOk,
      BATCH_ATTEMPTS]
  rw [hrun]
  exact ⟨rfl, rfl, rfl, rfl⟩

end ECHR
